import Mathlib

/-!
Verification of the activity scheduling and lifecycle engine
(`src/core/activity.py` and `src/core/scheduler.py`).

Modelling conventions:
* Timestamps (`datetime.now()`, `next_execution`, `last_execution`) are natural
  numbers counting minutes since an epoch; a day has 1440 minutes and the
  time-of-day of `t` is `t % 1440`, so Python's `datetime.combine`,
  `date + timedelta(days=1)` and `time`-of-day comparisons become plain
  arithmetic on `Nat`.
* `start_time`/`end_time` are stored already parsed as minutes-of-day
  (`Option Nat`); the source stores "HH:MM" strings and parses them inside
  `_adjust_for_time_window`, with a parse failure caught and ignored —
  the claims are about validly configured windows.
* Wall-clock execution time (a float of seconds in the source) is a `ℚ`
  passed in as `elapsed`; it only feeds the time statistics.
* A phase call (`check_prerequisites`, `execute`, `verify_completion`) either
  returns a `Bool` or raises: `PhaseResult`.  `_run_with_timeout` catches the
  exception and returns `False`; the soft timeout only logs, so it has no
  effect on the returned value and is not modelled.
* Python object identity (used by `activity in self._activities` and
  `list.remove`) is modelled by a `Nat` token per `Activity` instance; the
  scheduler's object store `heap` maps tokens to the instance's current state,
  `order` is the `_activities` list and `by_id` the `_activities_by_id` dict.
* `_change_state` fires the `on_state_change` callback exactly when the state
  actually changes; the list of states observably entered during one `run()`
  is returned as the `entered` trace.
-/

namespace GameAuto

/-- The `ActivityState` enum from `activity.py`. -/
inductive ActivityState where
  | IDLE
  | SCHEDULED
  | CHECKING
  | READY
  | EXECUTING
  | VERIFYING
  | SUCCESS
  | FAILED
  | DISABLED
  deriving DecidableEq, Repr

/-- The `ActivityConfig` dataclass (times-of-day pre-parsed to minutes). -/
structure ActivityConfig where
  enabled : Bool
  interval_hours : Nat
  interval_minutes : Nat
  start_time : Option Nat
  end_time : Option Nat
  priority : Int
  max_retries : Nat
  retry_delay_minutes : Nat
  max_execution_seconds : Nat
  deriving DecidableEq, Repr

/-- The mutable per-instance state of an `Activity` object. -/
structure Activity where
  name : String
  config : ActivityConfig
  state : ActivityState
  last_execution : Option Nat
  next_execution : Option Nat
  retry_count : Nat
  total_executions : Nat
  successful_executions : Nat
  failed_executions : Nat
  total_execution_time_seconds : ℚ
  average_execution_time_seconds : ℚ
  deriving DecidableEq, Repr

/-- Outcome of calling one of the three abstract phase methods: it either
returns a boolean or raises an exception. -/
inductive PhaseResult where
  | ok (b : Bool)
  | exn
  deriving DecidableEq, Repr

/-- `Activity.__init__`: state starts `SCHEDULED` when enabled, else `IDLE`;
all counters zero, no executions recorded yet. -/
def Activity.mkInit (name : String) (config : ActivityConfig) : Activity :=
  { name := name
    config := config
    state := if config.enabled = false then .IDLE else .SCHEDULED
    last_execution := none
    next_execution := none
    retry_count := 0
    total_executions := 0
    successful_executions := 0
    failed_executions := 0
    total_execution_time_seconds := 0
    average_execution_time_seconds := 0 }

/-- `Activity._run_with_timeout`: the timeout is soft (only logged), and any
exception from the wrapped call is caught and turned into `False`. -/
def runWithTimeout : PhaseResult → Bool
  | .ok b => b
  | .exn => false

/-- `Activity._change_state`: always assigns the new state; the
`on_state_change` callback (the observable trace) fires only when the state
actually changed. -/
def Activity.changeState (a : Activity) (tr : List ActivityState)
    (s : ActivityState) : Activity × List ActivityState :=
  ({a with state := s}, if a.state = s then tr else tr ++ [s])

/-- Total interval in minutes: `timedelta(hours=interval_hours,
minutes=interval_minutes)`. -/
def intervalMinutes (c : ActivityConfig) : Nat :=
  c.interval_hours * 60 + c.interval_minutes

/-- `Activity._adjust_for_time_window`: if the computed time-of-day is before
`start_time`, move to `start_time` the same day; otherwise if it is after
`end_time` and a `start_time` exists, move to `start_time` of the next day. -/
def adjustForTimeWindow (c : ActivityConfig) (t : Nat) : Nat :=
  if ¬ (c.start_time.isSome || c.end_time.isSome) then t
  else
    let tod := t % 1440
    let afterEnd :=
      match c.end_time with
      | some e =>
          if tod > e then
            match c.start_time with
            | some s => (t / 1440 + 1) * 1440 + s
            | none => t
          else t
      | none => t
    match c.start_time with
    | some s => if tod < s then (t / 1440) * 1440 + s else afterEnd
    | none => afterEnd

/-- `Activity.get_next_execution_time`: `now` stands for `datetime.now()`,
returned when the activity has never run. -/
def Activity.getNextExecutionTime (a : Activity) (now : Nat) : Nat :=
  match a.last_execution with
  | none => now
  | some last =>
      let next := last + intervalMinutes a.config
      if a.config.start_time.isSome || a.config.end_time.isSome then
        adjustForTimeWindow a.config next
      else next

/-- The value `get_next_execution_time` produces right after a success set
`last_execution := now`. -/
def nextAfter (c : ActivityConfig) (now : Nat) : Nat :=
  if c.start_time.isSome || c.end_time.isSome then
    adjustForTimeWindow c (now + intervalMinutes c)
  else now + intervalMinutes c

/-- `Activity._handle_success`. -/
def Activity.handleSuccess (a : Activity) (now : Nat) (elapsed : ℚ) : Activity :=
  let a := {a with
    total_executions := a.total_executions + 1
    successful_executions := a.successful_executions + 1
    retry_count := 0
    last_execution := some now}
  let a := {a with next_execution := some (a.getNextExecutionTime now)}
  let a := {a with
    total_execution_time_seconds := a.total_execution_time_seconds + elapsed}
  {a with average_execution_time_seconds :=
    a.total_execution_time_seconds / (a.total_executions : ℚ)}

/-- `Activity._handle_failure`: bump the counters; on retry exhaustion the
state becomes `DISABLED` and the config is switched off (and `next_execution`
is NOT recomputed), otherwise the retry is scheduled `retry_delay_minutes`
ahead of now. -/
def Activity.handleFailure (a : Activity) (tr : List ActivityState)
    (now : Nat) : Activity × List ActivityState :=
  let a := {a with
    total_executions := a.total_executions + 1
    failed_executions := a.failed_executions + 1
    retry_count := a.retry_count + 1}
  if a.retry_count ≥ a.config.max_retries then
    let p := a.changeState tr .DISABLED
    ({p.1 with config := {p.1.config with enabled := false}}, p.2)
  else
    ({a with next_execution := some (now + a.config.retry_delay_minutes)}, tr)

/-- Result of `Activity.run`: the returned boolean, the activity after the
call, and the observable state-change trace. -/
structure RunResult where
  returned : Bool
  activity : Activity
  entered : List ActivityState
  deriving DecidableEq, Repr

/-- The `finally` block of `Activity.run`: return to `SCHEDULED` unless the
run left the activity `DISABLED`. -/
def Activity.runFinally (r : Bool) (a : Activity)
    (tr : List ActivityState) : RunResult :=
  if a.state ≠ .DISABLED then
    let p := a.changeState tr .SCHEDULED
    ⟨r, p.1, p.2⟩
  else ⟨r, a, tr⟩

/-- `Activity.run`: the complete lifecycle of one invocation.  `now` stands
for the `datetime.now()` calls inside the failure/success handlers and
`elapsed` for the measured wall-clock execution time. -/
def Activity.run (a0 : Activity) (prereq exec verify : PhaseResult)
    (now : Nat) (elapsed : ℚ) : RunResult :=
  let p := a0.changeState [] .CHECKING
  if runWithTimeout prereq = false then
    let q := p.1.changeState p.2 .SCHEDULED
    Activity.runFinally false q.1 q.2
  else
    let p := p.1.changeState p.2 .READY
    let p := p.1.changeState p.2 .EXECUTING
    if runWithTimeout exec = false then
      let q := p.1.handleFailure p.2 now
      Activity.runFinally false q.1 q.2
    else
      let p := p.1.changeState p.2 .VERIFYING
      if runWithTimeout verify = false then
        let q := p.1.handleFailure p.2 now
        Activity.runFinally false q.1 q.2
      else
        let q := p.1.changeState p.2 .SUCCESS
        Activity.runFinally true (q.1.handleSuccess now elapsed) q.2

/-- `Activity.is_due` including its caching side effect: when
`next_execution` is unset it is computed and stored before the comparison. -/
def Activity.isDueUpd (a : Activity) (now : Nat) : Bool × Activity :=
  if a.config.enabled = false then (false, a)
  else if a.state = .DISABLED then (false, a)
  else
    match a.next_execution with
    | some ne => (decide (now ≥ ne), a)
    | none =>
        let ne := a.getNextExecutionTime now
        (decide (now ≥ ne), {a with next_execution := some ne})

/-- The boolean returned by `Activity.is_due`. -/
def Activity.isDue (a : Activity) (now : Nat) : Bool :=
  (a.isDueUpd now).1

/-- `Activity.enable`: switch on, reset the retry counter, back to
`SCHEDULED`.  `last_execution` and `next_execution` are untouched. -/
def Activity.enable (a : Activity) : Activity :=
  let a := {a with config := {a.config with enabled := true}, retry_count := 0}
  {a with state := .SCHEDULED}

/-- `Activity.disable`. -/
def Activity.disable (a : Activity) : Activity :=
  let a := {a with config := {a.config with enabled := false}}
  {a with state := .IDLE}

/-- `Activity.reset_statistics`. -/
def Activity.resetStatistics (a : Activity) : Activity :=
  {a with
    total_executions := 0
    successful_executions := 0
    failed_executions := 0
    total_execution_time_seconds := 0
    average_execution_time_seconds := 0
    retry_count := 0}

/-- `Activity.force_run_now`. -/
def Activity.forceRunNow (a : Activity) (now : Nat) : Activity :=
  {a with next_execution := some now}

/-- The id derived by `register_activity` when no explicit id is given:
`name.lower().replace(' ', '_')`.  The pattern is the single character
`' '`, so the replacement is the character-wise map. -/
def deriveId (name : String) : String :=
  ⟨name.data.map (fun c => if c.toLower = ' ' then '_' else c.toLower)⟩

/-- First binding of a key in an association list (dict read). -/
def assocLookup (l : List (String × Nat)) (k : String) : Option Nat :=
  match l.find? (fun p => decide (p.1 = k)) with
  | some p => some p.2
  | none => none

/-- Dict write: overwrite an existing binding in place, else append. -/
def assocInsert (l : List (String × Nat)) (k : String) (v : Nat) :
    List (String × Nat) :=
  if l.any (fun p => decide (p.1 = k)) then
    l.map (fun p => if p.1 = k then (k, v) else p)
  else l ++ [(k, v)]

/-- Dict deletion by key. -/
def assocErase (l : List (String × Nat)) (k : String) : List (String × Nat) :=
  l.filter (fun p => decide (¬ p.1 = k))

/-- Current state of the object a token refers to. -/
def heapFind (h : List (Nat × Activity)) (tok : Nat) : Option Activity :=
  match h.find? (fun p => decide (p.1 = tok)) with
  | some p => some p.2
  | none => none

/-- Mutate the object a token refers to (insert it when fresh). -/
def heapUpdate (h : List (Nat × Activity)) (tok : Nat) (a : Activity) :
    List (Nat × Activity) :=
  if h.any (fun p => decide (p.1 = tok)) then
    h.map (fun p => if p.1 = tok then (tok, a) else p)
  else h ++ [(tok, a)]

/-- The `ActivityScheduler` state.  `heap` is the object store (token ↦
current instance state), `order` is the `_activities` list (tokens in
registration order), `by_id` the `_activities_by_id` dict and `current`
the `_current_activity` reference. -/
structure Scheduler where
  heap : List (Nat × Activity)
  order : List Nat
  by_id : List (String × Nat)
  current : Option Nat
  total_executions : Nat
  successful_executions : Nat
  failed_executions : Nat
  deriving DecidableEq, Repr

/-- `ActivityScheduler.__init__`. -/
def Scheduler.mkInit : Scheduler :=
  { heap := []
    order := []
    by_id := []
    current := none
    total_executions := 0
    successful_executions := 0
    failed_executions := 0 }

/-- `ActivityScheduler.register_activity`: re-registering the identical
instance (`activity in self._activities`, object identity) is a no-op;
otherwise the instance is appended to the list and bound in the dict under
the explicit id, or the id derived from its name (Python's
`activity_id or ...` also falls back on an empty string). -/
def Scheduler.registerActivity (s : Scheduler) (tok : Nat) (a : Activity)
    (activityId : Option String) : Scheduler :=
  if tok ∈ s.order then s
  else
    let s := {s with heap := heapUpdate s.heap tok a, order := s.order ++ [tok]}
    let id :=
      match activityId with
      | some i => if i = "" then deriveId a.name else i
      | none => deriveId a.name
    {s with by_id := assocInsert s.by_id id tok}

/-- `ActivityScheduler.unregister_activity`: looks the object up in the dict,
removes its first occurrence from the list (`list.remove` compares by
identity) and deletes the dict binding. -/
def Scheduler.unregisterActivity (s : Scheduler) (id : String) :
    Bool × Scheduler :=
  match assocLookup s.by_id id with
  | none => (false, s)
  | some tok =>
      (true, {s with order := s.order.erase tok, by_id := assocErase s.by_id id})

/-- `ActivityScheduler.get_activity`: dict lookup, returning the object
(token) together with its current state. -/
def Scheduler.getActivity (s : Scheduler) (id : String) :
    Option (Nat × Activity) :=
  match assocLookup s.by_id id with
  | none => none
  | some tok =>
      match heapFind s.heap tok with
      | some a => some (tok, a)
      | none => none

/-- `ActivityScheduler._execute_activity`: run the activity, bump the
aggregate counters according to the returned boolean (a `run()` that
returned `False` increments `failed_executions`), and clear
`_current_activity` in the `finally`. -/
def Scheduler.executeActivity (s : Scheduler) (tok : Nat)
    (prereq exec verify : PhaseResult) (now : Nat) (elapsed : ℚ) : Scheduler :=
  match heapFind s.heap tok with
  | none => s
  | some a =>
      let r := a.run prereq exec verify now elapsed
      let s := {s with
        heap := heapUpdate s.heap tok r.activity
        total_executions := s.total_executions + 1}
      let s :=
        if r.returned then
          {s with successful_executions := s.successful_executions + 1}
        else
          {s with failed_executions := s.failed_executions + 1}
      {s with current := none}

/-- `ActivityScheduler.run_activity_now`: refused (returns `False`, nothing
touched) when the id is unknown or some activity is currently in flight;
otherwise the activity is executed (the source spawns an ephemeral worker
for it and returns `True`). -/
def Scheduler.runActivityNow (s : Scheduler) (id : String)
    (prereq exec verify : PhaseResult) (now : Nat) (elapsed : ℚ) :
    Bool × Scheduler :=
  match s.getActivity id with
  | none => (false, s)
  | some (tok, _) =>
      if s.current.isSome then (false, s)
      else (true, s.executeActivity tok prereq exec verify now elapsed)

/-- The due set built by `_get_next_due_activity`: registered activities, in
registration order, that are enabled, not `DISABLED`, and due.  (The
caching write `is_due` can do fills `next_execution` with the very value
the comparison used, so the returned boolean is unaffected.) -/
def Scheduler.dueActivities (s : Scheduler) (now : Nat) :
    List (Nat × Activity) :=
  s.order.filterMap (fun tok =>
    match heapFind s.heap tok with
    | none => none
    | some a =>
        if a.config.enabled = true ∧ a.state ≠ .DISABLED ∧ a.isDue now = true
        then some (tok, a) else none)

/-- The comparison `_get_next_due_activity` sorts with:
`key=lambda a: a.config.priority`, lower number first. -/
def prioLE (p q : Nat × Activity) : Bool :=
  decide (p.2.config.priority ≤ q.2.config.priority)

/-- `ActivityScheduler._get_next_due_activity`: Python's `list.sort` is a
stable sort, modelled by `List.mergeSort`; the head of the sorted due set
is returned. -/
def Scheduler.getNextDueActivity (s : Scheduler) (now : Nat) :
    Option (Nat × Activity) :=
  ((s.dueActivities now).mergeSort prioLE).head?

/-- One iteration of `_scheduler_loop`: execute the selected activity if any
(else the loop just sleeps). -/
def Scheduler.tick (s : Scheduler) (prereq exec verify : PhaseResult)
    (now : Nat) (elapsed : ℚ) : Scheduler :=
  match s.getNextDueActivity now with
  | some p => s.executeActivity p.1 prereq exec verify now elapsed
  | none => s

/-- The first element of the list attaining the minimal priority — the
specification of "stable sort by priority, then take the head". -/
def firstMinByPriority : List (Nat × Activity) → Option (Nat × Activity)
  | [] => none
  | p :: l =>
      match firstMinByPriority l with
      | none => some p
      | some q =>
          if q.2.config.priority < p.2.config.priority then some q else some p

/-- The externally callable mutators of a single activity, plus one `run`
invocation and one due check (with its caching write). -/
inductive ActOp where
  | runOp (prereq exec verify : PhaseResult) (now : Nat) (elapsed : ℚ)
  | enableOp
  | disableOp
  | resetStatisticsOp
  | forceRunNowOp (now : Nat)
  | dueCheckOp (now : Nat)

/-- Apply one operation to an activity. -/
def applyOp : ActOp → Activity → Activity
  | .runOp p e v now el, a => (a.run p e v now el).activity
  | .enableOp, a => a.enable
  | .disableOp, a => a.disable
  | .resetStatisticsOp, a => a.resetStatistics
  | .forceRunNowOp now, a => a.forceRunNow now
  | .dueCheckOp now, a => (a.isDueUpd now).2

/-- The disabled-implies-switched-off invariant of the data model. -/
def disabledInv (a : Activity) : Prop :=
  a.state = .DISABLED → a.config.enabled = false

/-- The observable trace prefix contributed by entering `CHECKING`. -/
def checkingPrefix (a : Activity) : List ActivityState :=
  if a.state = .CHECKING then [] else [.CHECKING]

theorem run_of_prereq_false (a : Activity) (p e v : PhaseResult) (now : Nat)
    (el : ℚ) (hp : runWithTimeout p = false) :
    a.run p e v now el =
      ⟨false, {a with state := .SCHEDULED},
        checkingPrefix a ++ [.SCHEDULED]⟩ := by
  simp [Activity.run, Activity.changeState, Activity.runFinally,
    checkingPrefix, hp]

theorem run_of_exec_fail_retry (a : Activity) (p e v : PhaseResult) (now : Nat)
    (el : ℚ) (hp : runWithTimeout p = true) (he : runWithTimeout e = false)
    (hr : ¬ a.retry_count + 1 ≥ a.config.max_retries) :
    a.run p e v now el =
      ⟨false,
        {a with state := .SCHEDULED,
                total_executions := a.total_executions + 1,
                failed_executions := a.failed_executions + 1,
                retry_count := a.retry_count + 1,
                next_execution := some (now + a.config.retry_delay_minutes)},
        checkingPrefix a ++ [.READY, .EXECUTING, .SCHEDULED]⟩ := by
  simp [Activity.run, Activity.changeState, Activity.runFinally,
    Activity.handleFailure, checkingPrefix, hp, he, hr]

theorem run_of_exec_fail_disable (a : Activity) (p e v : PhaseResult)
    (now : Nat) (el : ℚ) (hp : runWithTimeout p = true)
    (he : runWithTimeout e = false)
    (hr : a.retry_count + 1 ≥ a.config.max_retries) :
    a.run p e v now el =
      ⟨false,
        {a with state := .DISABLED,
                config := {a.config with enabled := false},
                total_executions := a.total_executions + 1,
                failed_executions := a.failed_executions + 1,
                retry_count := a.retry_count + 1},
        checkingPrefix a ++ [.READY, .EXECUTING, .DISABLED]⟩ := by
  simp [Activity.run, Activity.changeState, Activity.runFinally,
    Activity.handleFailure, checkingPrefix, hp, he, hr]

theorem run_of_verify_fail_retry (a : Activity) (p e v : PhaseResult)
    (now : Nat) (el : ℚ) (hp : runWithTimeout p = true)
    (he : runWithTimeout e = true) (hv : runWithTimeout v = false)
    (hr : ¬ a.retry_count + 1 ≥ a.config.max_retries) :
    a.run p e v now el =
      ⟨false,
        {a with state := .SCHEDULED,
                total_executions := a.total_executions + 1,
                failed_executions := a.failed_executions + 1,
                retry_count := a.retry_count + 1,
                next_execution := some (now + a.config.retry_delay_minutes)},
        checkingPrefix a ++ [.READY, .EXECUTING, .VERIFYING, .SCHEDULED]⟩ := by
  simp [Activity.run, Activity.changeState, Activity.runFinally,
    Activity.handleFailure, checkingPrefix, hp, he, hv, hr]

theorem run_of_verify_fail_disable (a : Activity) (p e v : PhaseResult)
    (now : Nat) (el : ℚ) (hp : runWithTimeout p = true)
    (he : runWithTimeout e = true) (hv : runWithTimeout v = false)
    (hr : a.retry_count + 1 ≥ a.config.max_retries) :
    a.run p e v now el =
      ⟨false,
        {a with state := .DISABLED,
                config := {a.config with enabled := false},
                total_executions := a.total_executions + 1,
                failed_executions := a.failed_executions + 1,
                retry_count := a.retry_count + 1},
        checkingPrefix a ++ [.READY, .EXECUTING, .VERIFYING, .DISABLED]⟩ := by
  simp [Activity.run, Activity.changeState, Activity.runFinally,
    Activity.handleFailure, checkingPrefix, hp, he, hv, hr]

theorem run_of_success (a : Activity) (p e v : PhaseResult) (now : Nat)
    (el : ℚ) (hp : runWithTimeout p = true) (he : runWithTimeout e = true)
    (hv : runWithTimeout v = true) :
    a.run p e v now el =
      ⟨true,
        {a with state := .SCHEDULED,
                total_executions := a.total_executions + 1,
                successful_executions := a.successful_executions + 1,
                retry_count := 0,
                last_execution := some now,
                next_execution := some (nextAfter a.config now),
                total_execution_time_seconds :=
                  a.total_execution_time_seconds + el,
                average_execution_time_seconds :=
                  (a.total_execution_time_seconds + el) /
                    ((a.total_executions : ℚ) + 1)},
        checkingPrefix a ++
          [.READY, .EXECUTING, .VERIFYING, .SUCCESS, .SCHEDULED]⟩ := by
  simp [Activity.run, Activity.changeState, Activity.runFinally,
    Activity.handleSuccess, Activity.getNextExecutionTime, nextAfter,
    checkingPrefix, hp, he, hv]

/-- A representative configuration (the dataclass defaults with a 30 minute
interval and no time window). -/
def sampleConfig : ActivityConfig :=
  { enabled := true
    interval_hours := 0
    interval_minutes := 30
    start_time := none
    end_time := none
    priority := 5
    max_retries := 3
    retry_delay_minutes := 5
    max_execution_seconds := 300 }

/-- A freshly constructed activity used for concrete evaluations. -/
def sampleTask : Activity := Activity.mkInit "Alliance Help" sampleConfig

/-- Claim C1: `run()` returns `true` iff the task observably reached
`SUCCESS` in that invocation, and an exception thrown by any of the three
phases yields exactly the same result (return value, resulting activity
state and statistics, observable trace) as that phase returning `false`;
no phase exception escapes `run()` (the model of `run` is total). -/
theorem run_contract_c1 (a : Activity) (p e v : PhaseResult) (now : Nat)
    (el : ℚ) :
    ((a.run p e v now el).returned = true ↔
      ActivityState.SUCCESS ∈ (a.run p e v now el).entered)
    ∧ a.run .exn e v now el = a.run (.ok false) e v now el
    ∧ a.run p .exn v now el = a.run p (.ok false) v now el
    ∧ a.run p e .exn now el = a.run p e (.ok false) now el := by
  refine ⟨?_, rfl, rfl, rfl⟩
  cases hp : runWithTimeout p with
  | false =>
      rw [run_of_prereq_false a p e v now el hp]
      simp only [checkingPrefix]
      split <;> simp
  | true =>
      cases he : runWithTimeout e with
      | false =>
          by_cases hr : a.retry_count + 1 ≥ a.config.max_retries
          · rw [run_of_exec_fail_disable a p e v now el hp he hr]
            simp only [checkingPrefix]
            split <;> simp
          · rw [run_of_exec_fail_retry a p e v now el hp he hr]
            simp only [checkingPrefix]
            split <;> simp
      | true =>
          cases hv : runWithTimeout v with
          | false =>
              by_cases hr : a.retry_count + 1 ≥ a.config.max_retries
              · rw [run_of_verify_fail_disable a p e v now el hp he hv hr]
                simp only [checkingPrefix]
                split <;> simp
              · rw [run_of_verify_fail_retry a p e v now el hp he hv hr]
                simp only [checkingPrefix]
                split <;> simp
          | true =>
              rw [run_of_success a p e v now el hp he hv]
              simp only [checkingPrefix]
              split <;> simp

/-- Claim C3, counterexample: a `run()` in which `execute()` returns `false`
never observably enters the `FAILED` state (the source never assigns it):
the task goes straight from `EXECUTING` back to `SCHEDULED`. -/
theorem failed_never_entered_cex_c3 :
    (sampleTask.run (.ok true) (.ok false) (.ok true) 0 0).returned = false
    ∧ ActivityState.FAILED ∉
        (sampleTask.run (.ok true) (.ok false) (.ok true) 0 0).entered
    ∧ (sampleTask.run (.ok true) (.ok false) (.ok true) 0 0).entered =
        [.CHECKING, .READY, .EXECUTING, .SCHEDULED]
    ∧ (sampleTask.run (.ok true) (.ok false) (.ok true) 0 0).activity.state =
        .SCHEDULED := by
  decide

/-- Claim C3, amended: the `FAILED` state is never entered during any
`run()` invocation (`_handle_failure` never assigns it); on an `execute()`
or `verify_completion()` failure the task transitions directly to
`DISABLED` (when retries are exhausted) or back to `SCHEDULED`, and indeed
every `run()` invocation ends in `SCHEDULED` or `DISABLED`. -/
theorem no_failed_state_c3 (a : Activity) (p e v : PhaseResult) (now : Nat)
    (el : ℚ) :
    ActivityState.FAILED ∉ (a.run p e v now el).entered
    ∧ ((a.run p e v now el).activity.state = .SCHEDULED
       ∨ (a.run p e v now el).activity.state = .DISABLED) := by
  cases hp : runWithTimeout p with
  | false =>
      rw [run_of_prereq_false a p e v now el hp]
      simp only [checkingPrefix]
      split <;> simp
  | true =>
      cases he : runWithTimeout e with
      | false =>
          by_cases hr : a.retry_count + 1 ≥ a.config.max_retries
          · rw [run_of_exec_fail_disable a p e v now el hp he hr]
            simp only [checkingPrefix]
            split <;> simp
          · rw [run_of_exec_fail_retry a p e v now el hp he hr]
            simp only [checkingPrefix]
            split <;> simp
      | true =>
          cases hv : runWithTimeout v with
          | false =>
              by_cases hr : a.retry_count + 1 ≥ a.config.max_retries
              · rw [run_of_verify_fail_disable a p e v now el hp he hv hr]
                simp only [checkingPrefix]
                split <;> simp
              · rw [run_of_verify_fail_retry a p e v now el hp he hv hr]
                simp only [checkingPrefix]
                split <;> simp
          | true =>
              rw [run_of_success a p e v now el hp he hv]
              simp only [checkingPrefix]
              split <;> simp

/-- A sequence of consecutive failing runs (prerequisites met, `execute`
returns `false`), the k-th run happening at time `times k`. -/
def failSeq (times : Nat → Nat) (a : Activity) : Nat → Activity
  | 0 => a
  | k + 1 =>
      ((failSeq times a k).run (.ok true) (.ok false) (.ok true)
        (times k) 0).activity

theorem failStep_retry (b : Activity) (t : Nat)
    (hr : b.retry_count + 1 < b.config.max_retries) :
    ((b.run (.ok true) (.ok false) (.ok true) t 0).activity) =
      {b with state := .SCHEDULED,
              total_executions := b.total_executions + 1,
              failed_executions := b.failed_executions + 1,
              retry_count := b.retry_count + 1,
              next_execution := some (t + b.config.retry_delay_minutes)} := by
  rw [run_of_exec_fail_retry b (.ok true) (.ok false) (.ok true) t 0 rfl rfl
    (by omega)]

theorem failStep_disable (b : Activity) (t : Nat)
    (hr : b.config.max_retries ≤ b.retry_count + 1) :
    ((b.run (.ok true) (.ok false) (.ok true) t 0).activity) =
      {b with state := .DISABLED,
              config := {b.config with enabled := false},
              total_executions := b.total_executions + 1,
              failed_executions := b.failed_executions + 1,
              retry_count := b.retry_count + 1} := by
  rw [run_of_exec_fail_disable b (.ok true) (.ok false) (.ok true) t 0 rfl rfl
    (by omega)]

theorem failSeq_mid (times : Nat → Nat) (a : Activity)
    (h0 : a.retry_count = 0) :
    ∀ k, 1 ≤ k → k < a.config.max_retries →
    failSeq times a k =
      {a with state := .SCHEDULED,
              retry_count := k,
              total_executions := a.total_executions + k,
              failed_executions := a.failed_executions + k,
              next_execution :=
                some (times (k - 1) + a.config.retry_delay_minutes)} := by
  intro k
  induction k with
  | zero => intro h1 _; exact absurd h1 (by omega)
  | succ n ih =>
      intro _ h2
      by_cases hn : n = 0
      · subst hn
        simp only [failSeq]
        rw [failStep_retry a (times 0) (by omega)]
        simp [h0]
      · have h1n : 1 ≤ n := by omega
        have h2n : n < a.config.max_retries := by omega
        simp only [failSeq, ih h1n h2n]
        rw [failStep_retry _ (times n)
          (show n + 1 < a.config.max_retries by omega)]
        simp
        constructor <;> omega

/-- Claim C2: starting from `retry_count = 0` with `max_retries = N ≥ 1`,
every failed run increments `total_executions`, `failed_executions` and
`retry_count`; after the (N-1)-th consecutive failure the task is
`SCHEDULED` with `retry_count = N-1` and `next_execution` equal to the time
of that failure plus `retry_delay_minutes`; the N-th failure moves it to
`DISABLED` with `config.enabled = false`, without recomputing
`next_execution`. -/
theorem retry_exhaustion_c2 (a : Activity) (N : Nat) (times : Nat → Nat)
    (h0 : a.retry_count = 0) (hN : a.config.max_retries = N) (h1 : 1 ≤ N) :
    (∀ k, k < N →
      (failSeq times a (k + 1)).total_executions =
        (failSeq times a k).total_executions + 1
      ∧ (failSeq times a (k + 1)).failed_executions =
          (failSeq times a k).failed_executions + 1
      ∧ (failSeq times a (k + 1)).retry_count =
          (failSeq times a k).retry_count + 1)
    ∧ (2 ≤ N →
        (failSeq times a (N - 1)).state = .SCHEDULED
        ∧ (failSeq times a (N - 1)).retry_count = N - 1
        ∧ (failSeq times a (N - 1)).next_execution =
            some (times (N - 2) + a.config.retry_delay_minutes))
    ∧ (failSeq times a N).state = .DISABLED
    ∧ (failSeq times a N).config.enabled = false
    ∧ (failSeq times a N).next_execution =
        (failSeq times a (N - 1)).next_execution := by
  have hmid := failSeq_mid times a h0
  have hlast :
      failSeq times a N =
        {failSeq times a (N - 1) with
          state := .DISABLED,
          config := {(failSeq times a (N - 1)).config with enabled := false},
          total_executions := (failSeq times a (N - 1)).total_executions + 1,
          failed_executions := (failSeq times a (N - 1)).failed_executions + 1,
          retry_count := (failSeq times a (N - 1)).retry_count + 1} := by
    have hN1 : N = (N - 1) + 1 := by omega
    rw [hN1]
    simp only [failSeq, Nat.add_sub_cancel]
    by_cases h2 : 2 ≤ N
    · rw [hmid (N - 1) (by omega) (by omega)]
      exact failStep_disable _ _ (by simp [hN]; omega)
    · have hN0 : N - 1 = 0 := by omega
      rw [hN0]
      exact failStep_disable _ _ (by simp only [failSeq]; omega)
  refine ⟨?_, ?_, ?_, ?_, ?_⟩
  · intro k _
    simp only [failSeq]
    by_cases hr :
        (failSeq times a k).retry_count + 1 <
          (failSeq times a k).config.max_retries
    · rw [failStep_retry _ (times k) hr]
      exact ⟨rfl, rfl, rfl⟩
    · rw [failStep_disable _ (times k) (by omega)]
      exact ⟨rfl, rfl, rfl⟩
  · intro h2
    rw [hmid (N - 1) (by omega) (by omega)]
    refine ⟨rfl, rfl, ?_⟩
    have : N - 1 - 1 = N - 2 := by omega
    rw [this]
  · simp [hlast]
  · simp [hlast]
  · simp [hlast]

/-- Claim C2, witness: a concrete task with `max_retries = 2` driven through
two consecutive failures at times 0 and 100. -/
theorem retry_exhaustion_c2_witness :
    sampleTask.retry_count = 0 ∧ sampleTask.config.max_retries = 2 + 1 ∧
    ((∀ k, k < 2 + 1 →
      (failSeq (fun k => 100 * k) sampleTask (k + 1)).total_executions =
        (failSeq (fun k => 100 * k) sampleTask k).total_executions + 1
      ∧ (failSeq (fun k => 100 * k) sampleTask (k + 1)).failed_executions =
          (failSeq (fun k => 100 * k) sampleTask k).failed_executions + 1
      ∧ (failSeq (fun k => 100 * k) sampleTask (k + 1)).retry_count =
          (failSeq (fun k => 100 * k) sampleTask k).retry_count + 1)
    ∧ (2 ≤ 2 + 1 →
        (failSeq (fun k => 100 * k) sampleTask (2 + 1 - 1)).state = .SCHEDULED
        ∧ (failSeq (fun k => 100 * k) sampleTask (2 + 1 - 1)).retry_count =
            2 + 1 - 1
        ∧ (failSeq (fun k => 100 * k) sampleTask (2 + 1 - 1)).next_execution =
            some (100 * (2 + 1 - 2) + sampleTask.config.retry_delay_minutes))
    ∧ (failSeq (fun k => 100 * k) sampleTask (2 + 1)).state = .DISABLED
    ∧ (failSeq (fun k => 100 * k) sampleTask (2 + 1)).config.enabled = false
    ∧ (failSeq (fun k => 100 * k) sampleTask (2 + 1)).next_execution =
        (failSeq (fun k => 100 * k) sampleTask (2 + 1 - 1)).next_execution) :=
  ⟨rfl, rfl,
    retry_exhaustion_c2 sampleTask (2 + 1) (fun k => 100 * k) rfl rfl
      (by decide)⟩

theorem adjustForTimeWindow_ge (c : ActivityConfig) (t : Nat) :
    t ≤ adjustForTimeWindow c t := by
  rcases hs : c.start_time with _ | s <;> rcases he : c.end_time with _ | e <;>
    simp [adjustForTimeWindow, hs, he] <;> (try split) <;> (try split) <;> omega

theorem nextAfter_ge (c : ActivityConfig) (now : Nat) :
    now + intervalMinutes c ≤ nextAfter c now := by
  unfold nextAfter
  split
  · exact adjustForTimeWindow_ge c (now + intervalMinutes c)
  · exact Nat.le_refl _

/-- Claim C4, counterexample: with a zero interval (meaning "as fast as the
scheduler tick allows") and no time window, a successful run leaves
`next_execution` exactly equal to `last_execution`, so the claimed strict
inequality `nextExecution > lastExecution` fails. -/
def zeroIntervalTask : Activity :=
  Activity.mkInit "Mail Collection"
    {sampleConfig with interval_hours := 0, interval_minutes := 0}

/-- Claim C4, counterexample theorem: a successful run of the zero-interval
task at time 1000 sets both `last_execution` and `next_execution` to 1000. -/
theorem zero_interval_cex_c4 :
    (zeroIntervalTask.run (.ok true) (.ok true) (.ok true) 1000 0).returned =
      true
    ∧ (zeroIntervalTask.run (.ok true) (.ok true) (.ok true) 1000
        0).activity.last_execution = some 1000
    ∧ (zeroIntervalTask.run (.ok true) (.ok true) (.ok true) 1000
        0).activity.next_execution = some 1000 := by
  decide

/-- Claim C4, amended: after any successful run, `last_execution = now` and
`next_execution = last_execution + interval`, adjusted into the daily
window when one is configured (both window adjustments only ever move the
time forward); hence `nextExecution ≥ lastExecution`, strictly when the
interval is positive (with a zero interval and no applicable adjustment
they are equal).  A task whose `last_execution` is null computes a
next-execution time of `now`, i.e. is due immediately. -/
theorem next_execution_c4 (a : Activity) (p e v : PhaseResult) (now : Nat)
    (el : ℚ) (h : (a.run p e v now el).returned = true) :
    (a.run p e v now el).activity.last_execution = some now
    ∧ (a.run p e v now el).activity.next_execution =
        some (nextAfter a.config now)
    ∧ now + intervalMinutes a.config ≤ nextAfter a.config now
    ∧ now ≤ nextAfter a.config now
    ∧ (0 < intervalMinutes a.config → now < nextAfter a.config now)
    ∧ (∀ (b : Activity) (t : Nat), b.last_execution = none →
        b.getNextExecutionTime t = t) := by
  have hge := nextAfter_ge a.config now
  cases hp : runWithTimeout p with
  | false =>
      rw [run_of_prereq_false a p e v now el hp] at h
      exact absurd h (by simp)
  | true =>
      cases he : runWithTimeout e with
      | false =>
          by_cases hr : a.retry_count + 1 ≥ a.config.max_retries
          · rw [run_of_exec_fail_disable a p e v now el hp he hr] at h
            exact absurd h (by simp)
          · rw [run_of_exec_fail_retry a p e v now el hp he hr] at h
            exact absurd h (by simp)
      | true =>
          cases hv : runWithTimeout v with
          | false =>
              by_cases hr : a.retry_count + 1 ≥ a.config.max_retries
              · rw [run_of_verify_fail_disable a p e v now el hp he hv hr] at h
                exact absurd h (by simp)
              · rw [run_of_verify_fail_retry a p e v now el hp he hv hr] at h
                exact absurd h (by simp)
          | true =>
              rw [run_of_success a p e v now el hp he hv]
              refine ⟨rfl, rfl, hge, by omega, by omega, ?_⟩
              intro b t hb
              simp [Activity.getNextExecutionTime, hb]

/-- Claim C4, witness: the amended statement instantiated on a successful
run of the sample 30-minute-interval task at time 1000. -/
theorem next_execution_c4_witness :
    (sampleTask.run (.ok true) (.ok true) (.ok true) 1000 0).returned = true
    ∧ ((sampleTask.run (.ok true) (.ok true) (.ok true) 1000
          0).activity.last_execution = some 1000
      ∧ (sampleTask.run (.ok true) (.ok true) (.ok true) 1000
          0).activity.next_execution =
            some (nextAfter sampleTask.config 1000)
      ∧ 1000 + intervalMinutes sampleTask.config ≤
          nextAfter sampleTask.config 1000
      ∧ 1000 ≤ nextAfter sampleTask.config 1000
      ∧ (0 < intervalMinutes sampleTask.config →
          1000 < nextAfter sampleTask.config 1000)
      ∧ (∀ (b : Activity) (t : Nat), b.last_execution = none →
          b.getNextExecutionTime t = t)) :=
  ⟨by decide,
    next_execution_c4 sampleTask (.ok true) (.ok true) (.ok true) 1000 0
      (by decide)⟩

/-- The configuration of the specification's §8 scenario: 10-minute interval,
`max_retries = 2`, `retry_delay_minutes = 5`, priority 1. -/
def c5Config : ActivityConfig :=
  { enabled := true
    interval_hours := 0
    interval_minutes := 10
    start_time := none
    end_time := none
    priority := 1
    max_retries := 2
    retry_delay_minutes := 5
    max_execution_seconds := 300 }

/-- The §8 scenario: a fresh task due at `t0`, failing at `t0` (scheduling a
retry at `t0 + 5`), failing again at `t0 + 5` (exhausting its two retries
and auto-disabling), then manually re-enabled. -/
def c5AfterEnable (t0 : Nat) : Activity :=
  ((((Activity.mkInit "Task A" c5Config).forceRunNow t0).run
      (.ok true) (.ok false) (.ok true) t0 0).activity.run
      (.ok true) (.ok false) (.ok true) (t0 + 5) 0).activity.enable

/-- Claim C5, counterexample: after the scenario's auto-disable and manual
re-enable, the task IS immediately due (`is_due` is true already at the
time of the disabling failure), and `last_execution` is still null (it is
only ever set on success), so `next_execution` does not stand at
`lastExecution + interval`: it stands at the first failure's retry time,
already in the past. -/
theorem reenable_due_cex_c5 :
    (c5AfterEnable 0).isDue 5 = true
    ∧ (c5AfterEnable 0).last_execution = none
    ∧ (c5AfterEnable 0).next_execution = some 5 := by
  decide

/-- Claim C5, amended: in the §8 scenario (two consecutive failures with
`max_retries = 2`, never any success), a subsequent manual `enable()`
resets `retry_count` to 0 and the state to `SCHEDULED` and leaves
`last_execution`/`next_execution` unchanged (as `enable` always does);
but `last_execution` is still null, `next_execution` is the first
failure's time plus `retry_delay_minutes` (not `lastExecution + interval`),
and the task IS immediately due again at any time from the disabling
failure on. -/
theorem reenable_c5 (t0 t : Nat) (h : t0 + 5 ≤ t) :
    (c5AfterEnable t0).retry_count = 0
    ∧ (c5AfterEnable t0).state = .SCHEDULED
    ∧ (c5AfterEnable t0).config.enabled = true
    ∧ (c5AfterEnable t0).last_execution = none
    ∧ (c5AfterEnable t0).next_execution = some (t0 + 5)
    ∧ (c5AfterEnable t0).isDue t = true
    ∧ (∀ b : Activity, b.enable.last_execution = b.last_execution
        ∧ b.enable.next_execution = b.next_execution) := by
  unfold c5AfterEnable
  rw [failStep_retry _ t0 (show (0 : Nat) + 1 < 2 by omega)]
  rw [failStep_disable _ (t0 + 5) (show (2 : Nat) ≤ 0 + 1 + 1 by omega)]
  refine ⟨rfl, rfl, rfl, rfl, rfl, ?_, fun b => ⟨rfl, rfl⟩⟩
  simp [Activity.isDue, Activity.isDueUpd, Activity.enable, Activity.mkInit,
    Activity.forceRunNow, c5Config]
  omega

/-- Claim C5, witness: the amended statement at `t0 = 100`, checked at
`t = 105`. -/
theorem reenable_c5_witness :
    100 + 5 ≤ 105
    ∧ ((c5AfterEnable 100).retry_count = 0
      ∧ (c5AfterEnable 100).state = .SCHEDULED
      ∧ (c5AfterEnable 100).config.enabled = true
      ∧ (c5AfterEnable 100).last_execution = none
      ∧ (c5AfterEnable 100).next_execution = some (100 + 5)
      ∧ (c5AfterEnable 100).isDue 105 = true
      ∧ (∀ b : Activity, b.enable.last_execution = b.last_execution
          ∧ b.enable.next_execution = b.next_execution)) :=
  ⟨by omega, reenable_c5 100 105 (by omega)⟩

/-- A one-activity scheduler used for concrete scheduler evaluations. -/
def c6Sched : Scheduler :=
  Scheduler.mkInit.registerActivity 1 sampleTask none

/-- Claim C6, counterexample: when the scheduler drives a run whose
prerequisite check returns false, `run()` returns `False`, so
`_execute_activity` counts it in the scheduler's aggregate
`failed_executions` — the skip is NOT free at the scheduler level. -/
theorem prereq_skip_sched_cex_c6 :
    (c6Sched.executeActivity 1 (.ok false) (.ok true) (.ok true) 0
        0).failed_executions = 1
    ∧ (c6Sched.executeActivity 1 (.ok false) (.ok true) (.ok true) 0
        0).total_executions = 1
    ∧ heapFind (c6Sched.executeActivity 1 (.ok false) (.ok true) (.ok true) 0
        0).heap 1 = some sampleTask := by
  decide

/-- Claim C6, amended: a `run()` whose prerequisite check returns false
leaves the activity itself entirely unchanged except for returning the
state to `SCHEDULED` — no statistics, retry counter or schedule change —
and returns `False`; but when the scheduler drives that run, the `False`
return makes the scheduler increment its aggregate `total_executions` AND
`failed_executions` (the skip is counted as a failure in the scheduler's
aggregate counters, contrary to the claim). -/
theorem prereq_skip_c6 (a : Activity) (e v : PhaseResult) (now : Nat) (el : ℚ)
    (s : Scheduler) (tok : Nat) (ha : heapFind s.heap tok = some a) :
    (a.run (.ok false) e v now el).activity = {a with state := .SCHEDULED}
    ∧ (a.run (.ok false) e v now el).returned = false
    ∧ (s.executeActivity tok (.ok false) e v now el).total_executions =
        s.total_executions + 1
    ∧ (s.executeActivity tok (.ok false) e v now el).failed_executions =
        s.failed_executions + 1
    ∧ (s.executeActivity tok (.ok false) e v now el).successful_executions =
        s.successful_executions := by
  have hrun := run_of_prereq_false a (.ok false) e v now el rfl
  refine ⟨by rw [hrun], by rw [hrun], ?_, ?_, ?_⟩ <;>
    simp [Scheduler.executeActivity, ha, hrun]

/-- Claim C6, witness: the amended statement on the one-activity scheduler. -/
theorem prereq_skip_c6_witness :
    heapFind c6Sched.heap 1 = some sampleTask
    ∧ ((sampleTask.run (.ok false) (.ok true) (.ok true) 0 0).activity =
        {sampleTask with state := .SCHEDULED}
      ∧ (sampleTask.run (.ok false) (.ok true) (.ok true) 0 0).returned = false
      ∧ (c6Sched.executeActivity 1 (.ok false) (.ok true) (.ok true) 0
          0).total_executions = c6Sched.total_executions + 1
      ∧ (c6Sched.executeActivity 1 (.ok false) (.ok true) (.ok true) 0
          0).failed_executions = c6Sched.failed_executions + 1
      ∧ (c6Sched.executeActivity 1 (.ok false) (.ok true) (.ok true) 0
          0).successful_executions = c6Sched.successful_executions) :=
  ⟨by decide,
    prereq_skip_c6 sampleTask (.ok true) (.ok true) 0 0 c6Sched 1 (by decide)⟩

theorem prioLE_trans (x y z : Nat × Activity) :
    prioLE x y → prioLE y z → prioLE x z := by
  simp only [prioLE, decide_eq_true_eq]
  omega

theorem prioLE_total (x y : Nat × Activity) : prioLE x y || prioLE y x := by
  simp only [prioLE, Bool.or_eq_true, decide_eq_true_eq]
  omega

theorem firstMinByPriority_mem (l : List (Nat × Activity))
    (p : Nat × Activity) (h : firstMinByPriority l = some p) : p ∈ l := by
  induction l with
  | nil => simp [firstMinByPriority] at h
  | cons a l ih =>
      cases hfm : firstMinByPriority l with
      | none =>
          simp only [firstMinByPriority, hfm] at h
          simp at h
          simp [h]
      | some q =>
          simp only [firstMinByPriority, hfm] at h
          by_cases hlt : q.2.config.priority < a.2.config.priority
          · rw [if_pos hlt] at h
            exact List.mem_cons_of_mem a (ih (hfm.trans h))
          · rw [if_neg hlt] at h
            simp at h
            simp [h]

theorem firstMinByPriority_le (l : List (Nat × Activity)) :
    ∀ p, firstMinByPriority l = some p →
    ∀ q ∈ l, p.2.config.priority ≤ q.2.config.priority := by
  induction l with
  | nil => intro p h; simp [firstMinByPriority] at h
  | cons a l ih =>
      intro p h
      cases hfm : firstMinByPriority l with
      | none =>
          have hl : l = [] := by
            cases l with
            | nil => rfl
            | cons x xs =>
                exfalso
                cases hy : firstMinByPriority xs <;>
                  simp only [firstMinByPriority, hy] at hfm <;>
                  (try split at hfm) <;> simp at hfm
          subst hl
          simp only [firstMinByPriority] at h
          simp at h
          simp [h]
      | some q =>
          simp only [firstMinByPriority, hfm] at h
          by_cases hlt : q.2.config.priority < a.2.config.priority
          · rw [if_pos hlt] at h
            simp at h
            subst h
            intro r hr
            rcases List.mem_cons.mp hr with hr | hr
            · subst hr; omega
            · exact ih q hfm r hr
          · rw [if_neg hlt] at h
            simp at h
            subst h
            intro r hr
            rcases List.mem_cons.mp hr with hr | hr
            · subst hr; omega
            · have := ih q hfm r hr
              omega

theorem firstMinByPriority_earliest (l : List (Nat × Activity))
    (p : Nat × Activity) (h : firstMinByPriority l = some p) :
    ∃ l1 l2, l = l1 ++ p :: l2
      ∧ ∀ q ∈ l1, p.2.config.priority < q.2.config.priority := by
  induction l with
  | nil => simp [firstMinByPriority] at h
  | cons a l ih =>
      cases hfm : firstMinByPriority l with
      | none =>
          simp only [firstMinByPriority, hfm] at h
          simp at h
          exact ⟨[], l, by simp [h], by simp⟩
      | some q =>
          simp only [firstMinByPriority, hfm] at h
          by_cases hlt : q.2.config.priority < a.2.config.priority
          · rw [if_pos hlt] at h
            simp at h
            subst h
            obtain ⟨l1, l2, hl, hall⟩ := ih hfm
            refine ⟨a :: l1, l2, by simp [hl], ?_⟩
            intro r hr
            rcases List.mem_cons.mp hr with hr | hr
            · subst hr; omega
            · exact hall r hr
          · rw [if_neg hlt] at h
            simp at h
            exact ⟨[], l, by simp [h], by simp⟩

theorem head_mergeSort_prio (l : List (Nat × Activity)) :
    (l.mergeSort prioLE).head? = firstMinByPriority l := by
  induction l with
  | nil => simp [firstMinByPriority]
  | cons a l ih =>
      obtain ⟨l1, l2, h1, h2, h3⟩ :=
        List.mergeSort_cons prioLE_trans prioLE_total a l
      cases l1 with
      | nil =>
          simp only [List.nil_append] at h1 h2
          rw [h1]
          rw [h2] at ih
          cases hfm : firstMinByPriority l with
          | none => simp [firstMinByPriority, hfm]
          | some q =>
              rw [hfm] at ih
              have hq : q ∈ l2 := by
                cases l2 with
                | nil => simp at ih
                | cons x xs =>
                    simp at ih
                    simp [ih]
              have hs := List.sorted_mergeSort prioLE_trans prioLE_total (a :: l)
              rw [h1] at hs
              have hle : prioLE a q := (List.pairwise_cons.mp hs).1 q hq
              have hnlt : ¬ q.2.config.priority < a.2.config.priority := by
                simp only [prioLE, decide_eq_true_eq] at hle
                omega
              simp [firstMinByPriority, hfm, hnlt]
      | cons c t =>
          rw [h1]
          have hc : prioLE a c = false := by
            have := h3 c (by simp)
            simpa using this
          have hlt : c.2.config.priority < a.2.config.priority := by
            simp only [prioLE, decide_eq_false_iff_not, decide_eq_true_eq] at hc
            omega
          rw [h2] at ih
          simp only [List.cons_append, List.head?_cons] at ih ⊢
          rw [firstMinByPriority, ← ih]
          simp [hlt]

theorem mem_dueActivities (s : Scheduler) (now : Nat) (p : Nat × Activity)
    (hp : p ∈ s.dueActivities now) :
    heapFind s.heap p.1 = some p.2 ∧ p.2.config.enabled = true
    ∧ p.2.state ≠ .DISABLED ∧ p.2.isDue now = true := by
  simp only [Scheduler.dueActivities, List.mem_filterMap] at hp
  obtain ⟨tok, _, hf⟩ := hp
  split at hf
  · cases hf
  · rename_i a hh
    split at hf
    · rename_i hcond
      cases hf
      exact ⟨hh, hcond⟩
    · cases hf

theorem find?_update_ne (h : List (Nat × Activity)) (tok tok2 : Nat)
    (a : Activity) (hne : tok2 ≠ tok) :
    (h.map (fun p => if p.1 = tok then (tok, a) else p)).find?
        (fun p => decide (p.1 = tok2)) =
      h.find? (fun p => decide (p.1 = tok2)) := by
  induction h with
  | nil => rfl
  | cons q t ih =>
      by_cases hq : q.1 = tok
      · simp only [List.map_cons, if_pos hq]
        rw [List.find?_cons_of_neg _ (by simp; omega),
          List.find?_cons_of_neg _ (by simp [hq]; omega)]
        exact ih
      · simp only [List.map_cons, if_neg hq]
        by_cases hq2 : q.1 = tok2
        · rw [List.find?_cons_of_pos _ (by simp [hq2]),
            List.find?_cons_of_pos _ (by simp [hq2])]
        · rw [List.find?_cons_of_neg _ (by simp [hq2]),
            List.find?_cons_of_neg _ (by simp [hq2])]
          exact ih

theorem heapFind_heapUpdate_ne (h : List (Nat × Activity)) (tok tok2 : Nat)
    (a : Activity) (hne : tok2 ≠ tok) :
    heapFind (heapUpdate h tok a) tok2 = heapFind h tok2 := by
  unfold heapUpdate
  split
  · unfold heapFind
    rw [find?_update_ne h tok tok2 a hne]
  · unfold heapFind
    rw [List.find?_append]
    have h1 : List.find? (fun p => decide (p.1 = tok2)) [(tok, a)] = none := by
      rw [List.find?_cons_of_neg _ (by simp; omega)]
      rfl
    rw [h1]
    cases List.find? (fun p => decide (p.1 = tok2)) h <;> rfl

theorem isDue_mono (a : Activity) (t1 t2 : Nat) (h12 : t1 ≤ t2)
    (h : a.isDue t1 = true) : a.isDue t2 = true := by
  simp only [Activity.isDue, Activity.isDueUpd] at h ⊢
  by_cases hen : a.config.enabled = false
  · simp [hen] at h
  · simp only [if_neg hen] at h ⊢
    by_cases hd : a.state = .DISABLED
    · simp [hd] at h
    · simp only [if_neg hd] at h ⊢
      cases hne : a.next_execution with
      | some ne => rw [hne] at h; simp at h ⊢; omega
      | none =>
          rw [hne] at h
          simp only [decide_eq_true_eq] at h ⊢
          cases hl : a.last_execution with
          | none => simp [Activity.getNextExecutionTime, hl]
          | some L =>
              rw [Activity.getNextExecutionTime, hl] at h ⊢
              simp only [ge_iff_le] at h ⊢
              omega

/-- Claim C7: on each poll tick the scheduler's selection equals the first
element of the due set (registration order) attaining the minimal priority
number — i.e. lowest priority number wins, ties broken stably by
registration order; only the selected activity is executed by the tick
(every other object in the store is untouched), and due-ness is monotone
in time, so an unselected still-due task remains due for later ticks. -/
theorem priority_selection_c7 (s : Scheduler) (now : Nat) :
    s.getNextDueActivity now = firstMinByPriority (s.dueActivities now)
    ∧ (∀ p, s.getNextDueActivity now = some p →
        p ∈ s.dueActivities now
        ∧ (∀ q ∈ s.dueActivities now,
            p.2.config.priority ≤ q.2.config.priority)
        ∧ (∃ l1 l2, s.dueActivities now = l1 ++ p :: l2
            ∧ ∀ q ∈ l1, p.2.config.priority < q.2.config.priority))
    ∧ (∀ (p : Nat × Activity) (pre ex ve : PhaseResult) (el : ℚ),
        s.getNextDueActivity now = some p →
        ∀ tok2, tok2 ≠ p.1 →
          heapFind (s.tick pre ex ve now el).heap tok2 =
            heapFind s.heap tok2)
    ∧ (∀ (b : Activity) (t1 t2 : Nat), t1 ≤ t2 → b.isDue t1 = true →
        b.isDue t2 = true) := by
  have hchar : s.getNextDueActivity now =
      firstMinByPriority (s.dueActivities now) :=
    head_mergeSort_prio (s.dueActivities now)
  refine ⟨hchar, ?_, ?_, fun b t1 t2 => isDue_mono b t1 t2⟩
  · intro p hp
    rw [hchar] at hp
    exact ⟨firstMinByPriority_mem _ p hp, firstMinByPriority_le _ p hp,
      firstMinByPriority_earliest _ p hp⟩
  · intro p pre ex ve el hp tok2 hne
    have htick : s.tick pre ex ve now el =
        s.executeActivity p.1 pre ex ve now el := by
      unfold Scheduler.tick
      rw [hp]
    rw [htick]
    cases hh : heapFind s.heap p.1 with
    | none => simp [Scheduler.executeActivity, hh]
    | some a =>
        cases hr : (a.run pre ex ve now el).returned <;>
          simp [Scheduler.executeActivity, hh, hr,
            heapFind_heapUpdate_ne s.heap p.1 tok2 _ hne]

/-- A high-urgency (priority 2) task that is due from time 0 on. -/
def p2Task : Activity :=
  {Activity.mkInit "Shield Monitor" {sampleConfig with priority := 2} with
    next_execution := some 0}

/-- A low-urgency (priority 7) task that is due from time 0 on. -/
def p7Task : Activity :=
  {Activity.mkInit "Resource Gathering" {sampleConfig with priority := 7} with
    next_execution := some 0}

/-- Scheduler holding the priority-2 and priority-7 tasks. -/
def c7Sched : Scheduler :=
  (Scheduler.mkInit.registerActivity 1 p2Task none).registerActivity 2
    p7Task none

/-- Claim C7, witness: with both tasks due, the tick at time 100 selects the
priority-2 task; after that tick (a successful run pushing it 30 minutes
ahead), the still-due priority-7 task is selected at time 110 rather than
skipped. -/
theorem priority_selection_c7_witness :
    c7Sched.getNextDueActivity 100 = some (1, p2Task)
    ∧ (c7Sched.tick (.ok true) (.ok true) (.ok true) 100
        0).getNextDueActivity 110 = some (2, p7Task) := by
  have h1 : c7Sched.getNextDueActivity 100 = some (1, p2Task) :=
    (priority_selection_c7 c7Sched 100).1.trans (by decide)
  have htick : c7Sched.tick (.ok true) (.ok true) (.ok true) 100 0 =
      c7Sched.executeActivity 1 (.ok true) (.ok true) (.ok true) 100 0 := by
    unfold Scheduler.tick
    rw [h1]
  refine ⟨h1, ?_⟩
  rw [htick]
  exact (priority_selection_c7
    (c7Sched.executeActivity 1 (.ok true) (.ok true) (.ok true) 100 0)
    110).1.trans (by decide)

/-- Claim C8: the invariant `state = DISABLED ⇒ config.enabled = false` is
preserved by every operation (`run`, `enable`, `disable`,
`reset_statistics`, `force_run_now`, and the due check with its caching
write); while `DISABLED` the task is never reported due by `is_due` and is
never selected by the scheduler; and a manual `enable()` resets
`retry_count` to 0 and moves the state back to `SCHEDULED`. -/
theorem disabled_invariant_c8 :
    (∀ (op : ActOp) (a : Activity), disabledInv a → disabledInv (applyOp op a))
    ∧ (∀ (a : Activity) (now : Nat), a.state = .DISABLED →
        a.isDue now = false)
    ∧ (∀ (s : Scheduler) (now : Nat) (p : Nat × Activity),
        s.getNextDueActivity now = some p →
          p.2.state ≠ .DISABLED ∧ p.2.config.enabled = true)
    ∧ (∀ a : Activity, a.enable.retry_count = 0
        ∧ a.enable.state = .SCHEDULED) := by
  refine ⟨?_, ?_, ?_, fun a => ⟨rfl, rfl⟩⟩
  · intro op a ha
    cases op with
    | runOp p e v now el =>
        simp only [applyOp]
        intro hd
        cases hp : runWithTimeout p with
        | false =>
            rw [run_of_prereq_false a p e v now el hp] at hd
            simp at hd
        | true =>
            cases he : runWithTimeout e with
            | false =>
                by_cases hr : a.retry_count + 1 ≥ a.config.max_retries
                · rw [run_of_exec_fail_disable a p e v now el hp he hr]
                · rw [run_of_exec_fail_retry a p e v now el hp he hr] at hd
                  simp at hd
            | true =>
                cases hv : runWithTimeout v with
                | false =>
                    by_cases hr : a.retry_count + 1 ≥ a.config.max_retries
                    · rw [run_of_verify_fail_disable a p e v now el hp he hv hr]
                    · rw [run_of_verify_fail_retry a p e v now el hp he hv hr]
                        at hd
                      simp at hd
                | true =>
                    rw [run_of_success a p e v now el hp he hv] at hd
                    simp at hd
    | enableOp =>
        intro hd
        simp [applyOp, Activity.enable] at hd
    | disableOp =>
        intro hd
        simp [applyOp, Activity.disable] at hd
    | resetStatisticsOp => exact fun hd => ha hd
    | forceRunNowOp now => exact fun hd => ha hd
    | dueCheckOp now =>
        simp only [applyOp, Activity.isDueUpd]
        split
        · exact ha
        · split
          · exact ha
          · split
            · exact ha
            · exact ha
  · intro a now hd
    simp only [Activity.isDue, Activity.isDueUpd]
    by_cases hen : a.config.enabled = false
    · simp [hen]
    · simp [hen, hd]
  · intro s now p hp
    have hp2 : firstMinByPriority (s.dueActivities now) = some p := by
      rw [← head_mergeSort_prio]
      exact hp
    obtain ⟨_, hen, hnd, _⟩ :=
      mem_dueActivities s now p (firstMinByPriority_mem _ p hp2)
    exact ⟨hnd, hen⟩

/-- A task that has been auto-disabled (state `DISABLED`, config off). -/
def disabledTask : Activity :=
  {sampleTask with
    state := .DISABLED
    config := {sampleConfig with enabled := false}}

/-- Claim C8, witness: the disabled task is never reported due. -/
theorem disabled_invariant_c8_witness :
    disabledTask.state = .DISABLED ∧ disabledTask.isDue 1000 = false :=
  ⟨rfl, disabled_invariant_c8.2.1 disabledTask 1000 rfl⟩

/-- Claim C9: `run_activity_now` returns `false` and leaves the scheduler
(and hence the target task's state and statistics) completely unchanged
whenever the id is unknown or some activity is currently in flight; only
when the id resolves and no activity is in flight does it execute the
task (returning `true`). -/
theorem run_now_guard_c9 (s : Scheduler) (id : String) (p e v : PhaseResult)
    (now : Nat) (el : ℚ) :
    (s.getActivity id = none → s.runActivityNow id p e v now el = (false, s))
    ∧ (s.current.isSome = true →
        s.runActivityNow id p e v now el = (false, s))
    ∧ (∀ tok a, s.getActivity id = some (tok, a) → s.current = none →
        s.runActivityNow id p e v now el =
          (true, s.executeActivity tok p e v now el)) := by
  refine ⟨?_, ?_, ?_⟩
  · intro h
    simp [Scheduler.runActivityNow, h]
  · intro h
    cases hg : s.getActivity id with
    | none => simp [Scheduler.runActivityNow, hg]
    | some pr => simp [Scheduler.runActivityNow, hg, h]
  · intro tok a hg hc
    simp [Scheduler.runActivityNow, hg, hc]

/-- A scheduler with the sample task registered and another activity
currently in flight. -/
def busySched : Scheduler := {c6Sched with current := some 1}

/-- Claim C9, witness: with an activity in flight, a manual run of the
registered id `alliance_help` is refused and the scheduler is unchanged. -/
theorem run_now_guard_c9_witness :
    busySched.current.isSome = true
    ∧ busySched.runActivityNow "alliance_help" (.ok true) (.ok true)
        (.ok true) 0 0 = (false, busySched) :=
  ⟨rfl, (run_now_guard_c9 busySched "alliance_help" (.ok true) (.ok true)
      (.ok true) 0 0).2.1 rfl⟩

/-- First registered instance named "Daily Login" (priority 3, due at 0). -/
def regTask1 : Activity :=
  {Activity.mkInit "Daily Login" {sampleConfig with priority := 3} with
    next_execution := some 0}

/-- Second, distinct instance with the same name (priority 4, due at 0). -/
def regTask2 : Activity :=
  {Activity.mkInit "Daily Login" {sampleConfig with priority := 4} with
    next_execution := some 0}

/-- Scheduler after registering both same-name instances in order. -/
def regSched2 : Scheduler :=
  (Scheduler.mkInit.registerActivity 1 regTask1 none).registerActivity 2
    regTask2 none

/-- Claim C10: registration only rejects re-registering the identical
instance; registering a second, distinct instance whose derived id
collides leaves both instances in the activity list (both eligible for
due-selection) while the dict maps the id to the most recent one;
`unregister` then removes only that most recent instance, leaving the
earlier one still registered and due-eligible yet unreachable by any id. -/
theorem registration_identity_c10 :
    (∀ (s : Scheduler) (tok : Nat) (a : Activity) (i : Option String),
      tok ∈ s.order → s.registerActivity tok a i = s)
    ∧ deriveId "Daily Login" = "daily_login"
    ∧ regSched2.order = [1, 2]
    ∧ ((regSched2.dueActivities 0).map Prod.fst) = [1, 2]
    ∧ regSched2.getActivity "daily_login" = some (2, regTask2)
    ∧ (regSched2.unregisterActivity "daily_login").1 = true
    ∧ (regSched2.unregisterActivity "daily_login").2.order = [1]
    ∧ (((regSched2.unregisterActivity "daily_login").2.dueActivities 0).map
        Prod.fst) = [1]
    ∧ (regSched2.unregisterActivity "daily_login").2.by_id = []
    ∧ (∀ id : String,
        (regSched2.unregisterActivity "daily_login").2.getActivity id =
          none) := by
  refine ⟨?_, by decide, by decide, by decide, by decide, by decide,
    by decide, by decide, by decide, ?_⟩
  · intro s tok a i h
    simp [Scheduler.registerActivity, h]
  · intro id
    have hb : (regSched2.unregisterActivity "daily_login").2.by_id = [] := by
      decide
    simp [Scheduler.getActivity, hb, assocLookup]

/-- Claim C10, witness: re-registering the identical first instance is a
no-op on the two-instance scheduler. -/
theorem registration_identity_c10_witness :
    1 ∈ regSched2.order
    ∧ regSched2.registerActivity 1 regTask1 none = regSched2 :=
  ⟨by decide, registration_identity_c10.1 regSched2 1 regTask1 none
    (by decide)⟩

end GameAuto
